import Mathlib

/-!
Shallow embedding of lithops/localhost/local_handler.py: the localhost
job-execution engine (LocalhostExecutor, extract_runtime_meta and the
command entry point), together with theorems checking the specification
claims against it.
-/

namespace LocalHandler

/-- A per-call data byte range, as stored in job.data_ranges; its internal
structure is irrelevant to the handler, which only copies it into the
payload, so it is kept as an opaque pair of naturals. -/
structure DataRange where
  lo : Nat
  hi : Nat
deriving DecidableEq

/-- The lithops section of the configuration dict: __init__ reads
config[lithops].get(workers, CPU_COUNT), so the workers entry may be
absent. -/
structure LithopsSection where
  workers : Option Nat
deriving DecidableEq

/-- The configuration dict passed to LocalhostExecutor.__init__; only the
lithops key is ever read by the handler, and dict access raises KeyError
when it is absent, hence the Option. -/
structure Config where
  lithops : Option LithopsSection
deriving DecidableEq

/-- The fields of the inner job description that LocalhostExecutor.run and
_invoke read from the SimpleNamespace built out of job_description.
This is the validated view: every field present (the lazy, unvalidated
view used by the entry point is JobDict below). -/
structure Job where
  executor_id : String
  job_id : String
  total_calls : Nat
  data_ranges : List DataRange
  func_key : String
  data_key : String
  extra_env : List (String × String)
  execution_timeout : Nat
  runtime_name : String
  runtime_memory : Nat
deriving DecidableEq

/-- Little-endian decimal digits of n, by repeated division by 10; this is
the digit sequence underlying the 05d format used for call ids. -/
def natDigits (n : Nat) : List Nat :=
  if n < 10 then [n] else (n % 10) :: natDigits (n / 10)
termination_by n
decreasing_by exact Nat.div_lt_self (by omega) (by omega)

/-- The character for one decimal digit d, 0 mapped to the character 0. -/
def digitChar (d : Nat) : Char := Char.ofNat (48 + d)

/-- The character list of the call id 05d-format of i: the decimal digits
of i, left padded with the zero character to a minimum width of 5, exactly
as the Python format string 05d applied to a nonnegative integer. -/
def callIDChars (i : Nat) : List Char :=
  let ds := (natDigits i).reverse
  List.replicate (5 - ds.length) '0' ++ ds.map digitChar

/-- The call id string for call index i, as built in LocalhostExecutor.run
by the 05d format. -/
def callID (i : Nat) : String := String.mk (callIDChars i)

/-- Value of a big-endian digit list, most significant first: the fold
underlying the int() parse of a decimal string. -/
def parseDigits (ds : List Nat) : Nat := ds.foldl (fun a d => 10 * a + d) 0

/-- int(call_id) as performed inside _invoke on the zero-padded decimal
call id: each character becomes its digit value and the big-endian value
is folded up. -/
def parseCallID (s : String) : Nat :=
  parseDigits (s.data.map (fun c => c.toNat - 48))

/-- The invocation payload dict built by LocalhostExecutor._invoke, one
field per key of the dict literal, in source order. -/
structure CallPayload where
  config : Config
  log_level : String
  func_key : String
  data_key : String
  extra_env : List (String × String)
  execution_timeout : Nat
  data_byte_range : DataRange
  executor_id : String
  job_id : String
  call_id : String
  host_submit_tstamp : Nat
  lithops_version : String
  runtime_name : String
  runtime_memory : Nat
deriving DecidableEq

/-- Ambient values _invoke reads from outside the job: self.config, the
effective logger level name, the lithops __version__ string, and the
wall-clock timestamp time.time() (one representative value; the claims
never depend on it varying per call). -/
structure InvokeCtx where
  config : Config
  log_level : String
  version : String
  tstamp : Nat
deriving DecidableEq

/-- The payload dict literal of _invoke, given the data byte range already
looked up: a full copy of the job fields plus the call id, timestamp,
version and log level. -/
def mkPayload (ctx : InvokeCtx) (job : Job) (call_id : String) (r : DataRange) :
    CallPayload :=
  { config := ctx.config
    log_level := ctx.log_level
    func_key := job.func_key
    data_key := job.data_key
    extra_env := job.extra_env
    execution_timeout := job.execution_timeout
    data_byte_range := r
    executor_id := job.executor_id
    job_id := job.job_id
    call_id := call_id
    host_submit_tstamp := ctx.tstamp
    lithops_version := ctx.version
    runtime_name := job.runtime_name
    runtime_memory := job.runtime_memory }

/-- LocalhostExecutor._invoke: builds the payload for one call id, looking
up job.data_ranges[int(call_id)]; in Python an out-of-range index raises
IndexError, modelled by none. -/
def invoke (ctx : InvokeCtx) (job : Job) (call_id : String) : Option CallPayload :=
  (job.data_ranges.get? (parseCallID call_id)).map (mkPayload ctx job call_id)

/-- The payload that _invoke builds for in-range call index i (getD is the
in-range lookup; it agrees with data_ranges[i] whenever i is in range). -/
def mkPayloadAt (ctx : InvokeCtx) (job : Job) (i : Nat) : CallPayload :=
  mkPayload ctx job (callID i) (job.data_ranges.getD i ⟨0, 0⟩)

/-- An item of the shared work queue: either an invocation payload or a
ShutdownSentinel instance. -/
inductive QItem where
  | payload (p : CallPayload)
  | sentinel
deriving DecidableEq

/-- The dispatch loop of LocalhostExecutor.run restricted to the first n
call indices: enqueues payloads in index order and stops at the first
IndexError, returning the payloads enqueued so far and the failing index
if any. -/
def dispatchUpTo (ctx : InvokeCtx) (job : Job) : Nat → List CallPayload × Option Nat
  | 0 => ([], none)
  | n + 1 =>
    match dispatchUpTo ctx job n with
    | (acc, some e) => (acc, some e)
    | (acc, none) =>
      match invoke ctx job (callID n) with
      | some p => (acc ++ [p], none)
      | none => (acc, some n)

/-- LocalhostExecutor.run: for i in range(total_calls) enqueue the payload
with call id 05d-format of i, then put one ShutdownSentinel per worker.
Returns the queue contents in enqueue order together with the index of the
IndexError aborting the loop, if any (in which case no sentinel is
enqueued, since the exception propagates before the sentinel loop). -/
def run (ctx : InvokeCtx) (W : Nat) (job : Job) : List QItem × Option Nat :=
  match dispatchUpTo ctx job job.total_calls with
  | (ps, some e) => (ps.map QItem.payload, some e)
  | (ps, none) => (ps.map QItem.payload ++ List.replicate W QItem.sentinel, none)

/-- LocalhostExecutor.wait joins every worker in turn; join on worker w
returns only once w has terminated, so wait returns exactly when all W
workers have terminated. -/
def waitReturns (terminated : Nat → Bool) (W : Nat) : Bool :=
  (List.range W).all terminated

/-- FIFO semantics of the shared queue: the k-th dequeue, counted across
all consuming workers, returns the k-th enqueued item. -/
def dequeuedAt (q : List QItem) (k : Nat) : Option QItem := q.get? k

/-! Arithmetic of the call id format: the 05d string determines the index
(int parse is a left inverse), so call ids are unique, and the string has
width exactly 5 for indices below 100000. -/

theorem natDigits_lt_ten (n : Nat) : ∀ d ∈ natDigits n, d < 10 := by
  induction n using natDigits.induct with
  | case1 n h =>
    intro d hd
    rw [natDigits, if_pos h] at hd
    simp only [List.mem_singleton] at hd
    omega
  | case2 n h ih =>
    intro d hd
    rw [natDigits, if_neg h] at hd
    rcases List.mem_cons.mp hd with h1 | h2
    · omega
    · exact ih d h2

theorem parseDigits_natDigits_reverse (n : Nat) :
    parseDigits (natDigits n).reverse = n := by
  induction n using natDigits.induct with
  | case1 n h =>
    rw [natDigits, if_pos h]
    simp [parseDigits]
  | case2 n h ih =>
    rw [natDigits, if_neg h]
    simp only [List.reverse_cons]
    unfold parseDigits at ih ⊢
    rw [List.foldl_append, ih]
    simp only [List.foldl_cons, List.foldl_nil]
    omega

theorem parseDigits_replicate_zero (k : Nat) (ds : List Nat) :
    parseDigits (List.replicate k 0 ++ ds) = parseDigits ds := by
  unfold parseDigits
  rw [List.foldl_append]
  have hz : List.foldl (fun a d => 10 * a + d) 0 (List.replicate k 0) = 0 := by
    induction k with
    | zero => rfl
    | succ m ihm => rw [List.replicate_succ, List.foldl_cons]; simpa using ihm
  rw [hz]

theorem digitChar_toNat : ∀ d < 10, (digitChar d).toNat = 48 + d := by decide

theorem parseCallID_callID (i : Nat) : parseCallID (callID i) = i := by
  have hdig := natDigits_lt_ten i
  show parseDigits ((callIDChars i).map fun c => c.toNat - 48) = i
  unfold callIDChars
  rw [List.map_append, List.map_replicate, List.map_map]
  have h0 : ('0'.toNat - 48) = 0 := by decide
  rw [h0]
  have hmap : List.map ((fun c => c.toNat - 48) ∘ digitChar) (natDigits i).reverse
      = List.map id (natDigits i).reverse := by
    apply List.map_congr_left
    intro d hd
    have hlt : d < 10 := hdig d (List.mem_reverse.mp hd)
    simp only [Function.comp_apply, id_eq]
    rw [digitChar_toNat d hlt]
    omega
  rw [hmap, List.map_id, parseDigits_replicate_zero, parseDigits_natDigits_reverse]

theorem callID_injective : Function.Injective callID := by
  intro i j h
  have := congrArg parseCallID h
  rwa [parseCallID_callID, parseCallID_callID] at this

theorem natDigits_length_le (n : Nat) :
    ∀ k, 1 ≤ k → n < 10 ^ k → (natDigits n).length ≤ k := by
  induction n using natDigits.induct with
  | case1 n h =>
    intro k hk _
    rw [natDigits, if_pos h]
    simpa using hk
  | case2 n h ih =>
    intro k hk hn
    rw [natDigits, if_neg h]
    simp only [List.length_cons]
    have hk2 : 2 ≤ k := by
      by_contra hc
      interval_cases k
      omega
    have hdiv : n / 10 < 10 ^ (k - 1) := by
      have : 10 ^ k = 10 ^ (k - 1) * 10 := by
        rw [← pow_succ]
        congr 1
        omega
      omega
    have := ih (k - 1) (by omega) hdiv
    omega

theorem callID_length (i : Nat) (h : i < 100000) : (callID i).length = 5 := by
  have hlen : (natDigits i).length ≤ 5 := natDigits_length_le i 5 (by omega) h
  show (callIDChars i).length = 5
  unfold callIDChars
  rw [List.length_append, List.length_replicate, List.length_map,
    List.length_reverse]
  omega

/-! Shape of the dispatch loop: with all indices in range it enqueues one
payload per index in order; with an out-of-range index it stops at the
first one, keeping the in-range payloads already enqueued. -/

theorem invoke_callID_eq (ctx : InvokeCtx) (job : Job) (m : Nat)
    (hm : m < job.data_ranges.length) :
    invoke ctx job (callID m) = some (mkPayloadAt ctx job m) := by
  unfold invoke mkPayloadAt
  rw [parseCallID_callID, List.get?_eq_getElem?, List.getElem?_eq_getElem hm,
    List.getD_eq_getElem job.data_ranges ⟨0, 0⟩ hm]
  rfl

theorem invoke_callID_none (ctx : InvokeCtx) (job : Job) (m : Nat)
    (hm : job.data_ranges.length ≤ m) :
    invoke ctx job (callID m) = none := by
  unfold invoke
  rw [parseCallID_callID, List.get?_eq_getElem?, List.getElem?_eq_none hm]
  rfl

theorem dispatchUpTo_ok (ctx : InvokeCtx) (job : Job) :
    ∀ n, n ≤ job.data_ranges.length →
      dispatchUpTo ctx job n = ((List.range n).map (mkPayloadAt ctx job), none) := by
  intro n
  induction n with
  | zero => intro _; rfl
  | succ m ih =>
    intro h
    simp only [dispatchUpTo]
    rw [ih (by omega), invoke_callID_eq ctx job m (by omega), List.range_succ,
      List.map_append]
    rfl

theorem dispatchUpTo_fail (ctx : InvokeCtx) (job : Job) :
    ∀ n, job.data_ranges.length < n →
      dispatchUpTo ctx job n =
        ((List.range job.data_ranges.length).map (mkPayloadAt ctx job),
          some job.data_ranges.length) := by
  intro n
  induction n with
  | zero => intro h; omega
  | succ m ih =>
    intro h
    rcases Nat.lt_or_ge job.data_ranges.length m with hl | hg
    · simp only [dispatchUpTo]
      rw [ih hl]
    · have hm : job.data_ranges.length = m := by omega
      simp only [dispatchUpTo]
      rw [dispatchUpTo_ok ctx job m (by omega),
        invoke_callID_none ctx job m (by omega), hm]

/-- The full queue contents produced by run on a job whose data ranges
cover all call indices: the payloads for indices 0 to total_calls in
order, followed by exactly W sentinels. -/
theorem run_queue_eq (ctx : InvokeCtx) (W : Nat) (job : Job)
    (h : job.total_calls ≤ job.data_ranges.length) :
    run ctx W job =
      ((List.range job.total_calls).map
          (fun i => QItem.payload (mkPayloadAt ctx job i))
        ++ List.replicate W QItem.sentinel, none) := by
  unfold run
  rw [dispatchUpTo_ok ctx job job.total_calls h]
  simp [List.map_map, Function.comp]

/-- The queue contents produced by run on a job with more calls than data
ranges: exactly the in-range payloads, no sentinel, and the IndexError at
the first out-of-range index. -/
theorem run_fail_eq (ctx : InvokeCtx) (W : Nat) (job : Job)
    (h : job.data_ranges.length < job.total_calls) :
    run ctx W job =
      ((List.range job.data_ranges.length).map
          (fun i => QItem.payload (mkPayloadAt ctx job i)),
        some job.data_ranges.length) := by
  unfold run
  rw [dispatchUpTo_fail ctx job job.total_calls h]
  simp [List.map_map, Function.comp]

/-! Concrete inputs used by witnesses and counterexamples. -/

/-- A small concrete job: 3 calls, 3 data ranges. -/
def sampleJob : Job :=
  { executor_id := "exec/0", job_id := "A001", total_calls := 3,
    data_ranges := [⟨0, 10⟩, ⟨10, 20⟩, ⟨20, 30⟩], func_key := "fkey",
    data_key := "dkey", extra_env := [], execution_timeout := 600,
    runtime_name := "python3", runtime_memory := 256 }

/-- A concrete ambient context for _invoke. -/
def sampleCtx : InvokeCtx :=
  { config := ⟨some ⟨some 2⟩⟩, log_level := "INFO", version := "2.2.11",
    tstamp := 1000 }

/-- The sample job with more calls than data ranges: 5 calls, 3 ranges. -/
def sampleJobOver : Job :=
  { sampleJob with total_calls := 5 }

/-- C1: on a job whose data ranges cover all N call indices, run enqueues
exactly N payloads, the one at queue position i being the payload for call
index i, followed by exactly W shutdown sentinels, so every sentinel sits
strictly after every payload; and wait returns exactly when all W workers
have terminated. -/
theorem run_enqueues_payloads_then_markers (ctx : InvokeCtx) (W : Nat) (job : Job)
    (h : job.total_calls ≤ job.data_ranges.length) :
    (run ctx W job).2 = none ∧
    (run ctx W job).1.length = job.total_calls + W ∧
    (∀ i, i < job.total_calls →
      (run ctx W job).1[i]? = some (QItem.payload (mkPayloadAt ctx job i))) ∧
    (∀ j, job.total_calls ≤ j → j < job.total_calls + W →
      (run ctx W job).1[j]? = some QItem.sentinel) ∧
    (∀ t : Nat → Bool, waitReturns t W = true ↔ ∀ w, w < W → t w = true) := by
  have hq := run_queue_eq ctx W job h
  rw [hq]
  dsimp only
  refine ⟨rfl, ?_, ?_, ?_, ?_⟩
  · simp
  · intro i hi
    rw [List.getElem?_append_left (by simpa using hi), List.getElem?_map,
      List.getElem?_range hi]
    rfl
  · intro j hj1 hj2
    rw [List.getElem?_append_right (by simpa using hj1),
      List.getElem?_replicate]
    simp only [List.length_map, List.length_range]
    rw [if_pos (by omega)]
  · intro t
    simp [waitReturns, List.all_eq_true, List.mem_range]

/-- Closed instance of the C1 theorem at the sample job with 2 workers. -/
theorem run_enqueues_payloads_then_markers_witness :
    sampleJob.total_calls ≤ sampleJob.data_ranges.length ∧
    ((run sampleCtx 2 sampleJob).2 = none ∧
     (run sampleCtx 2 sampleJob).1.length = sampleJob.total_calls + 2 ∧
     (∀ i, i < sampleJob.total_calls →
       (run sampleCtx 2 sampleJob).1[i]? =
         some (QItem.payload (mkPayloadAt sampleCtx sampleJob i))) ∧
     (∀ j, sampleJob.total_calls ≤ j → j < sampleJob.total_calls + 2 →
       (run sampleCtx 2 sampleJob).1[j]? = some QItem.sentinel) ∧
     (∀ t : Nat → Bool, waitReturns t 2 = true ↔ ∀ w, w < 2 → t w = true)) :=
  ⟨by decide, run_enqueues_payloads_then_markers sampleCtx 2 sampleJob (by decide)⟩

/-- C2: under FIFO dequeue semantics, whenever the k-th dequeue of a run
yields a shutdown sentinel, every payload of the job sits at a queue
position strictly below k, hence was delivered to some worker by an
earlier dequeue: no worker receives a marker while any payload remains
unconsumed. -/
theorem no_marker_while_payload_unconsumed (ctx : InvokeCtx) (W : Nat) (job : Job)
    (h : job.total_calls ≤ job.data_ranges.length) :
    ∀ k j p, dequeuedAt (run ctx W job).1 k = some QItem.sentinel →
      dequeuedAt (run ctx W job).1 j = some (QItem.payload p) → j < k := by
  have hq := run_queue_eq ctx W job h
  intro k j p hk hj
  unfold dequeuedAt at hk hj
  rw [hq] at hk hj
  dsimp only at hk hj
  rw [List.get?_eq_getElem?] at hk hj
  have hAlen : (List.map (fun i => QItem.payload (mkPayloadAt ctx job i))
      (List.range job.total_calls)).length = job.total_calls := by simp
  have hjN : j < job.total_calls := by
    by_contra hc
    push_neg at hc
    rw [List.getElem?_append_right (by rw [hAlen]; omega),
      List.getElem?_replicate] at hj
    split_ifs at hj
    simp_all
  have hkN : job.total_calls ≤ k := by
    by_contra hc
    push_neg at hc
    rw [List.getElem?_append_left (by rw [hAlen]; omega), List.getElem?_map,
      List.getElem?_range hc] at hk
    simp at hk
  omega

/-- Closed instance of the C2 theorem at the sample job with 2 workers. -/
theorem no_marker_while_payload_unconsumed_witness :
    sampleJob.total_calls ≤ sampleJob.data_ranges.length ∧
    (∀ k j p, dequeuedAt (run sampleCtx 2 sampleJob).1 k = some QItem.sentinel →
      dequeuedAt (run sampleCtx 2 sampleJob).1 j = some (QItem.payload p) →
      j < k) :=
  ⟨by decide, no_marker_while_payload_unconsumed sampleCtx 2 sampleJob (by decide)⟩

/-! The payload as a dict: its key list, for comparison with the field
set the specification asserts. -/

/-- A tagged field value, used to render the payload dict of _invoke as an
association list. -/
inductive FieldVal where
  | cfg (c : Config)
  | str (s : String)
  | env (e : List (String × String))
  | nat (n : Nat)
  | rng (r : DataRange)
deriving DecidableEq

/-- The payload dict built by _invoke, rendered as an association list:
the keys of the dict literal in source order, each paired with the field
it carries. -/
def payloadEntries (p : CallPayload) : List (String × FieldVal) :=
  [("config", FieldVal.cfg p.config),
   ("log_level", FieldVal.str p.log_level),
   ("func_key", FieldVal.str p.func_key),
   ("data_key", FieldVal.str p.data_key),
   ("extra_env", FieldVal.env p.extra_env),
   ("execution_timeout", FieldVal.nat p.execution_timeout),
   ("data_byte_range", FieldVal.rng p.data_byte_range),
   ("executor_id", FieldVal.str p.executor_id),
   ("job_id", FieldVal.str p.job_id),
   ("call_id", FieldVal.str p.call_id),
   ("host_submit_tstamp", FieldVal.nat p.host_submit_tstamp),
   ("lithops_version", FieldVal.str p.lithops_version),
   ("runtime_name", FieldVal.str p.runtime_name),
   ("runtime_memory", FieldVal.nat p.runtime_memory)]

/-- The key list of the payload dict a payload carries. -/
def payloadKeys (p : CallPayload) : List String :=
  (payloadEntries p).map Prod.fst

/-- The key list of the payload dict as written in the source of _invoke. -/
def lithopsPayloadKeys : List String :=
  ["config", "log_level", "func_key", "data_key", "extra_env",
   "execution_timeout", "data_byte_range", "executor_id", "job_id",
   "call_id", "host_submit_tstamp", "lithops_version", "runtime_name",
   "runtime_memory"]

/-- Modelled from the spec: the field set the specification asserts for
the invocation payload (section 6), for comparison with the one the code
builds; it names a version key where the code writes lithops_version. -/
def specPayloadKeys : List String :=
  ["config", "log_level", "func_key", "data_key", "extra_env",
   "execution_timeout", "data_byte_range", "executor_id", "job_id",
   "call_id", "host_submit_tstamp", "version", "runtime_name",
   "runtime_memory"]

/-- The payload carried by a queue item, if any. -/
def QItem.getPayload : QItem → Option CallPayload
  | QItem.payload p => some p
  | QItem.sentinel => none

/-- The payloads on the queue produced by run, in enqueue order. -/
def runPayloads (ctx : InvokeCtx) (W : Nat) (job : Job) : List CallPayload :=
  (run ctx W job).1.filterMap QItem.getPayload

theorem getPayload_replicate_sentinel (W : Nat) :
    List.filterMap QItem.getPayload (List.replicate W QItem.sentinel) = [] := by
  induction W with
  | zero => rfl
  | succ m ih => rw [List.replicate_succ, List.filterMap_cons]; exact ih

theorem runPayloads_eq (ctx : InvokeCtx) (W : Nat) (job : Job)
    (h : job.total_calls ≤ job.data_ranges.length) :
    runPayloads ctx W job = (List.range job.total_calls).map (mkPayloadAt ctx job) := by
  unfold runPayloads
  rw [run_queue_eq ctx W job h]
  dsimp only
  rw [List.filterMap_append, getPayload_replicate_sentinel, List.append_nil,
    List.filterMap_map]
  have hc : QItem.getPayload ∘ (fun i => QItem.payload (mkPayloadAt ctx job i))
      = some ∘ mkPayloadAt ctx job := rfl
  rw [hc, List.filterMap_eq_map]

/-- C4 counterexample: the payload dispatched for call index 0 of the
sample job carries a lithops_version key and no version key, so its field
set is not the one the claim lists; and call ids are not of one consistent
width for every job, since in a job of 100001 calls the id of index 100000
is 6 characters wide while the id of index 99999 is 5. -/
theorem payload_fields_counterexample :
    payloadKeys (mkPayloadAt sampleCtx sampleJob 0) ≠ specPayloadKeys ∧
    "version" ∉ payloadKeys (mkPayloadAt sampleCtx sampleJob 0) ∧
    "lithops_version" ∈ payloadKeys (mkPayloadAt sampleCtx sampleJob 0) ∧
    (callID 100000).length ≠ (callID 99999).length := by
  refine ⟨by decide, by decide, by decide, ?_⟩
  have h1 : (callID 100000).length = 6 := by
    show (callIDChars 100000).length = 6
    unfold callIDChars
    rw [List.length_append, List.length_replicate, List.length_map,
      List.length_reverse]
    have hd : natDigits 100000 = [0, 0, 0, 0, 0, 1] := by simp [natDigits]
    rw [hd]
    rfl
  have h2 : (callID 99999).length = 5 := callID_length 99999 (by omega)
  omega

/-- C4 amended: in a run whose data ranges cover all N call indices and
with N at most 100000, the dispatched payloads carry the call ids of the
indices 0 to N in order, each id appearing exactly once and all of them
5 characters wide; the payload at index i carries data_byte_range equal to
data_ranges[i]; and every payload carries exactly the keys of the source
dict literal, with lithops_version in place of the version key the
specification names. -/
theorem payload_ids_unique_complete (ctx : InvokeCtx) (W : Nat) (job : Job)
    (h : job.total_calls ≤ job.data_ranges.length)
    (hN : job.total_calls ≤ 100000) :
    (runPayloads ctx W job).map CallPayload.call_id
      = (List.range job.total_calls).map callID ∧
    ((runPayloads ctx W job).map CallPayload.call_id).Nodup ∧
    (∀ i, i < job.total_calls →
      ((runPayloads ctx W job).map CallPayload.call_id).count (callID i) = 1) ∧
    (∀ s ∈ (runPayloads ctx W job).map CallPayload.call_id, s.length = 5) ∧
    (∀ i, i < job.total_calls → ∃ p, (runPayloads ctx W job)[i]? = some p ∧
      job.data_ranges[i]? = some p.data_byte_range ∧
      payloadKeys p = lithopsPayloadKeys) := by
  have hids : (runPayloads ctx W job).map CallPayload.call_id
      = (List.range job.total_calls).map callID := by
    rw [runPayloads_eq ctx W job h, List.map_map]
    rfl
  have hnd : ((runPayloads ctx W job).map CallPayload.call_id).Nodup := by
    rw [hids]
    exact (List.nodup_range job.total_calls).map callID_injective
  refine ⟨hids, hnd, ?_, ?_, ?_⟩
  · intro i hi
    apply List.count_eq_one_of_mem hnd
    rw [hids]
    exact List.mem_map_of_mem callID (List.mem_range.mpr hi)
  · intro s hs
    rw [hids] at hs
    rcases List.mem_map.mp hs with ⟨i, hi, rfl⟩
    exact callID_length i (by have := List.mem_range.mp hi; omega)
  · intro i hi
    refine ⟨mkPayloadAt ctx job i, ?_, ?_, rfl⟩
    · rw [runPayloads_eq ctx W job h, List.getElem?_map, List.getElem?_range hi]
      rfl
    · have hlen : i < job.data_ranges.length := by omega
      rw [List.getElem?_eq_getElem hlen]
      show _ = some (job.data_ranges.getD i ⟨0, 0⟩)
      rw [List.getD_eq_getElem job.data_ranges ⟨0, 0⟩ hlen]

/-- Closed instance of the amended C4 theorem at the sample job. -/
theorem payload_ids_unique_complete_witness :
    (sampleJob.total_calls ≤ sampleJob.data_ranges.length ∧
     sampleJob.total_calls ≤ 100000) ∧
    ((runPayloads sampleCtx 2 sampleJob).map CallPayload.call_id
      = (List.range sampleJob.total_calls).map callID ∧
     ((runPayloads sampleCtx 2 sampleJob).map CallPayload.call_id).Nodup ∧
     (∀ i, i < sampleJob.total_calls →
       ((runPayloads sampleCtx 2 sampleJob).map CallPayload.call_id).count
         (callID i) = 1) ∧
     (∀ s ∈ (runPayloads sampleCtx 2 sampleJob).map CallPayload.call_id,
       s.length = 5) ∧
     (∀ i, i < sampleJob.total_calls →
       ∃ p, (runPayloads sampleCtx 2 sampleJob)[i]? = some p ∧
         sampleJob.data_ranges[i]? = some p.data_byte_range ∧
         payloadKeys p = lithopsPayloadKeys)) :=
  ⟨⟨by decide, by decide⟩,
    payload_ids_unique_complete sampleCtx 2 sampleJob (by decide) (by decide)⟩

/-- C9: when the job has more calls than data ranges, dispatch raises the
IndexError at the first out-of-range index, which is the length of the
data range list, and at that point exactly the in-range payloads have
already been enqueued (and no sentinel); hence run succeeds only when the
data ranges cover all call indices. -/
theorem run_out_of_range_dispatch (ctx : InvokeCtx) (W : Nat) (job : Job)
    (h : job.data_ranges.length < job.total_calls) :
    (run ctx W job).2 = some job.data_ranges.length ∧
    (run ctx W job).1 = (List.range job.data_ranges.length).map
      (fun i => QItem.payload (mkPayloadAt ctx job i)) := by
  rw [run_fail_eq ctx W job h]
  exact ⟨rfl, rfl⟩

/-- Closed instance of the C9 theorem: 5 calls over 3 data ranges fail at
index 3 with the 3 in-range payloads enqueued. -/
theorem run_out_of_range_dispatch_witness :
    sampleJobOver.data_ranges.length < sampleJobOver.total_calls ∧
    ((run sampleCtx 2 sampleJobOver).2 = some sampleJobOver.data_ranges.length ∧
     (run sampleCtx 2 sampleJobOver).1 = (List.range sampleJobOver.data_ranges.length).map
       (fun i => QItem.payload (mkPayloadAt sampleCtx sampleJobOver i))) :=
  ⟨by decide, run_out_of_range_dispatch sampleCtx 2 sampleJobOver (by decide)⟩

/-! The worker loop of _process_runner: per-item semantics. -/

/-- Outcome of the try block body on a dequeued payload: the invocation
routine returned normally, raised KeyboardInterrupt (the cancellation
signal), or raised any other exception. -/
inductive BodyOutcome where
  | ok
  | interrupt
  | exc
deriving DecidableEq

/-- What one iteration of the worker loop does next: loop back to the
blocking dequeue, leave the loop normally, or let an uncaught exception
propagate and terminate the worker. -/
inductive LoopAction where
  | continueLoop
  | breakLoop
  | crash
deriving DecidableEq

/-- One iteration of the while loop of _process_runner on a dequeued item:
a ShutdownSentinel breaks out of the loop; on a payload the try block runs
the invocation routine and catches only KeyboardInterrupt, which breaks;
any other exception propagates out of the loop uncaught; the activation
log block is formatted and appended only when the try block completes
normally (the break paths skip the write, the crash path never reaches
it). The Bool records whether the log block is appended. -/
def workerStep (item : QItem) (outcome : BodyOutcome) : LoopAction × Bool :=
  match item with
  | QItem.sentinel => (LoopAction.breakLoop, false)
  | QItem.payload _ =>
    match outcome with
    | BodyOutcome.ok => (LoopAction.continueLoop, true)
    | BodyOutcome.interrupt => (LoopAction.breakLoop, false)
    | BodyOutcome.exc => (LoopAction.crash, false)

/-- The worker loop over the successive items one worker dequeues, each
paired with the body outcome of processing it: counts the log blocks
appended and reports how the loop ended (continueLoop meaning the worker
is again blocked on the queue). -/
def workerLoop : List (QItem × BodyOutcome) → Nat × LoopAction
  | [] => (0, LoopAction.continueLoop)
  | (item, o) :: rest =>
    match workerStep item o with
    | (LoopAction.continueLoop, logged) =>
      ((if logged then 1 else 0) + (workerLoop rest).1, (workerLoop rest).2)
    | (LoopAction.breakLoop, _) => (0, LoopAction.breakLoop)
    | (LoopAction.crash, _) => (0, LoopAction.crash)

/-- C3 counterexample: a payload whose invocation raises an ordinary
exception yields neither a log block nor a loop back: the worker step is a
crash without logging, and a worker whose first dequeued payload raises
appends no block and processes nothing further, not even a sentinel
sitting behind it. -/
theorem worker_exception_counterexample :
    workerStep (QItem.payload (mkPayloadAt sampleCtx sampleJob 0)) BodyOutcome.exc
      ≠ (LoopAction.continueLoop, true) ∧
    workerLoop [(QItem.payload (mkPayloadAt sampleCtx sampleJob 0), BodyOutcome.exc),
      (QItem.sentinel, BodyOutcome.ok)] = (0, LoopAction.crash) :=
  ⟨by decide, by decide⟩

/-- C3 amended: on a payload the worker appends the activation log block
and loops back only on normal completion of the invocation; on the
cancellation signal it breaks out without logging; on any other exception
the exception propagates uncaught, terminating the worker with no log
block for that call and no further items processed. -/
theorem worker_step_exception_semantics (p : CallPayload)
    (rest : List (QItem × BodyOutcome)) :
    workerStep (QItem.payload p) BodyOutcome.ok = (LoopAction.continueLoop, true) ∧
    workerStep (QItem.payload p) BodyOutcome.interrupt = (LoopAction.breakLoop, false) ∧
    workerStep (QItem.payload p) BodyOutcome.exc = (LoopAction.crash, false) ∧
    workerLoop ((QItem.payload p, BodyOutcome.exc) :: rest) = (0, LoopAction.crash) ∧
    workerLoop ((QItem.payload p, BodyOutcome.ok) :: rest)
      = (1 + (workerLoop rest).1, (workerLoop rest).2) :=
  ⟨rfl, rfl, rfl, rfl, rfl⟩

/-! Output capture: the redirect context managers of the worker loop. -/

/-- Where a process-wide standard stream currently points: the inherited
OS stream, the LH_LOG_FILE stream set at pool construction, or the
per-call StringIO buffer of one activation. -/
inductive StreamTarget where
  | real
  | logFileStream
  | callBuffer (act : Nat)
deriving DecidableEq

/-- The pair of process-wide streams sys.stdout and sys.stderr. -/
structure Streams where
  out : StreamTarget
  err : StreamTarget
deriving DecidableEq

/-- Entering the redirect_stdout and redirect_stderr context managers:
each saves the stream it replaces and points it at the per-call buffer.
Returns the saved streams and the streams in effect inside the block. -/
def redirectEnter (s : Streams) (act : Nat) : Streams × Streams :=
  (s, ⟨StreamTarget.callBuffer act, StreamTarget.callBuffer act⟩)

/-- Leaving the redirect context managers: each restores exactly the
stream it saved on entry, whatever the streams are at that point. -/
def redirectExit (saved _current : Streams) : Streams := saved

/-- One pass through the with block of _process_runner: the managers are
entered, the body runs with the streams pointing at the call buffer, and
the managers exit on every path out of the block, since the with
statement runs the exits on normal completion, on the break taken after
KeyboardInterrupt, and before propagating an uncaught exception. Returns
the streams seen by the body and the streams after the block. -/
def captureOneCall (s : Streams) (act : Nat) (o : BodyOutcome) :
    Streams × Streams :=
  let se := redirectEnter s act
  match o with
  | BodyOutcome.ok => (se.2, redirectExit se.1 se.2)
  | BodyOutcome.interrupt => (se.2, redirectExit se.1 se.2)
  | BodyOutcome.exc => (se.2, redirectExit se.1 se.2)

/-- The process-wide streams across successive calls of one worker: each
call starts from the streams the previous call left behind. -/
def workerCallsStreams (s : Streams) : List (Nat × BodyOutcome) → Streams
  | [] => s
  | (act, o) :: rest => workerCallsStreams (captureOneCall s act o).2 rest

/-- C8: during one call the process-wide streams point at the call
buffer, and on every exit path of the capture scope (normal completion,
exception, cancellation) they are restored to exactly what they were
before the call; hence across any sequence of calls the streams end where
they started and no capture state leaks from one call to the next. -/
theorem capture_scoped_and_restored (s : Streams) (act : Nat) (o : BodyOutcome)
    (calls : List (Nat × BodyOutcome)) :
    (captureOneCall s act o).1
      = ⟨StreamTarget.callBuffer act, StreamTarget.callBuffer act⟩ ∧
    (captureOneCall s act o).2 = s ∧
    workerCallsStreams s calls = s := by
  refine ⟨by cases o <;> rfl, by cases o <;> rfl, ?_⟩
  induction calls with
  | nil => rfl
  | cons c rest ih =>
    obtain ⟨a, oc⟩ := c
    show workerCallsStreams (captureOneCall s a oc).2 rest = s
    have h2 : (captureOneCall s a oc).2 = s := by cases oc <;> rfl
    rw [h2, ih]

/-! The command entry point: the run branch as an event trace. -/

/-- Errors the run branch can raise while decoding and dispatching:
AttributeError at the first access of a missing SimpleNamespace
attribute, KeyError on a missing dict key, NameError on an unbound
module-global name, IndexError on an out-of-range data range index. -/
inductive RunError where
  | attributeError (n : String)
  | keyError (n : String)
  | nameError (n : String)
  | indexError
deriving DecidableEq

/-- Observable events of the run branch of the entry point. -/
inductive Event where
  | loadJob
  | readConfig
  | redirectStdStreams
  | startWorker (w : Nat)
  | logStartup (eid jid : String)
  | dispatch
  | joinWorker (w : Nat)
  | touchFile (path content : String)
deriving DecidableEq

/-- Whether an event is the start of a worker thread or process. -/
def isStartWorker : Event → Bool
  | Event.startWorker _ => true
  | _ => false

/-- Whether an event creates a file. -/
def isTouchFile : Event → Bool
  | Event.touchFile _ _ => true
  | _ => false

/-- LocalhostExecutor.__init__ as an event trace: it reads the worker
count from config[lithops] (KeyError when the key is absent, before any
worker exists), redirects the process streams to the log file, starts the
workers, and finally logs a startup line reading executor_id and job_id
from the module-global name job, which is not among the constructor
parameters; when that global is unbound the log line raises NameError,
after the workers have already been started. -/
def initEvents (cpu : Nat) (cfg : Config) (globalJob : Option (String × String)) :
    List Event × Option RunError :=
  match cfg.lithops with
  | none => ([Event.readConfig], some (RunError.keyError "lithops"))
  | some ls =>
    let W := ls.workers.getD cpu
    let tr := [Event.readConfig, Event.redirectStdStreams]
      ++ (List.range W).map Event.startWorker
    match globalJob with
    | none => (tr, some (RunError.nameError "job"))
    | some (eid, jid) => (tr ++ [Event.logStartup eid jid], none)

/-- The unvalidated inner job description: run builds a SimpleNamespace
from the job_description dict, which performs no validation, so every
field is optional and a missing one raises AttributeError only at its
first access. -/
structure JobDict where
  executor_id : Option String
  job_id : Option String
  total_calls : Option Nat
  data_ranges : Option (List DataRange)
  func_key : Option String
  data_key : Option String
  extra_env : Option (List (String × String))
  execution_timeout : Option Nat
  runtime_name : Option String
  runtime_memory : Option Nat
deriving DecidableEq

/-- The first error run raises on the inner job namespace, if any, in the
order the source reads the fields: total_calls in the loop header; then,
when there is at least one call, the fields read by the payload dict
literal in order, with the data range lookup of call 0 between
data_ranges and executor_id; and finally, when every field is present,
the IndexError of the first out-of-range index when total_calls exceeds
the number of data ranges. A job of zero calls reads nothing beyond
total_calls. -/
def runFirstError (jd : JobDict) : Option RunError :=
  match jd.total_calls with
  | none => some (RunError.attributeError "total_calls")
  | some 0 => none
  | some (n + 1) =>
    if jd.func_key.isNone then some (RunError.attributeError "func_key")
    else if jd.data_key.isNone then some (RunError.attributeError "data_key")
    else if jd.extra_env.isNone then some (RunError.attributeError "extra_env")
    else if jd.execution_timeout.isNone then
      some (RunError.attributeError "execution_timeout")
    else match jd.data_ranges with
      | none => some (RunError.attributeError "data_ranges")
      | some rs =>
        if rs.isEmpty then some RunError.indexError
        else if jd.executor_id.isNone then
          some (RunError.attributeError "executor_id")
        else if jd.job_id.isNone then some (RunError.attributeError "job_id")
        else if jd.runtime_name.isNone then
          some (RunError.attributeError "runtime_name")
        else if jd.runtime_memory.isNone then
          some (RunError.attributeError "runtime_memory")
        else if rs.length < n + 1 then some RunError.indexError
        else none

/-- The outer job file contents, also read through SimpleNamespace with
no validation; the entry point reads executor_id, job_id, config and
job_description from it. -/
structure TopDesc where
  executor_id : Option String
  job_id : Option String
  config : Option Config
  job_description : Option JobDict
deriving DecidableEq

/-- The completion marker path convention of the run branch: done dir,
slash, executor id with every slash replaced by a dash, underscore, job
id, and the done suffix. -/
def donePath (doneDir eid jid : String) : String :=
  doneDir ++ "/" ++ (eid.replace "/" "-") ++ "_" ++ jid ++ ".done"

/-- The run branch of the entry point as an event trace paired with its
first error, if any: load the job file (SimpleNamespace construction,
which cannot fail on missing fields), log a line reading executor_id and
job_id, construct the executor from config (which starts the workers),
dispatch the job, join every worker, and finally touch the completion
marker as an empty file. Every field access of the unvalidated
description fails only at that access. -/
def mainRunEvents (cpu : Nat) (doneDir : String) (d : TopDesc) :
    List Event × Option RunError :=
  match d.executor_id with
  | none => ([Event.loadJob], some (RunError.attributeError "executor_id"))
  | some eid =>
    match d.job_id with
    | none => ([Event.loadJob], some (RunError.attributeError "job_id"))
    | some jid =>
      match d.config with
      | none => ([Event.loadJob], some (RunError.attributeError "config"))
      | some cfg =>
        let ie := initEvents cpu cfg (some (eid, jid))
        let pre := Event.loadJob :: ie.1
        match ie.2 with
        | some e => (pre, some e)
        | none =>
          match d.job_description with
          | none => (pre, some (RunError.attributeError "job_description"))
          | some jd =>
            match runFirstError jd with
            | some e => (pre ++ [Event.dispatch], some e)
            | none =>
              let W := (cfg.lithops.getD ⟨none⟩).workers.getD cpu
              (pre ++ [Event.dispatch]
                ++ (List.range W).map Event.joinWorker
                ++ [Event.touchFile (donePath doneDir eid jid) ""], none)

theorem countP_touch_map_start (l : List Nat) :
    (l.map Event.startWorker).countP isTouchFile = 0 := by
  induction l with
  | nil => rfl
  | cons a t ih => simp [List.countP_cons, isTouchFile, ih]

theorem countP_touch_map_join (l : List Nat) :
    (l.map Event.joinWorker).countP isTouchFile = 0 := by
  induction l with
  | nil => rfl
  | cons a t ih => simp [List.countP_cons, isTouchFile, ih]

theorem countP_start_map_start (l : List Nat) :
    (l.map Event.startWorker).countP isStartWorker = l.length := by
  induction l with
  | nil => rfl
  | cons a t ih => simp [List.countP_cons, isStartWorker, ih]

theorem countP_start_map_join (l : List Nat) :
    (l.map Event.joinWorker).countP isStartWorker = 0 := by
  induction l with
  | nil => rfl
  | cons a t ih => simp [List.countP_cons, isStartWorker, ih]

/-- The sample job as an unvalidated inner description with every field
present. -/
def sampleJDict : JobDict :=
  { executor_id := some "exec/0", job_id := some "A001",
    total_calls := some 3,
    data_ranges := some [⟨0, 10⟩, ⟨10, 20⟩, ⟨20, 30⟩],
    func_key := some "fkey", data_key := some "dkey", extra_env := some [],
    execution_timeout := some 600, runtime_name := some "python3",
    runtime_memory := some 256 }

/-- C5: on a well-formed job description the run branch ends with exactly
one creation of the completion marker: the last event of the trace is the
touch of an empty file at the spec path (done dir, executor id with every
slash replaced by a dash, underscore, job id, done suffix), no earlier
event touches a file, and every one of the worker joins performed by wait
sits strictly before it. -/
theorem completion_marker_once_after_wait (cpu : Nat) (doneDir eid jid : String)
    (ls : LithopsSection) (jd : JobDict) (h : runFirstError jd = none) :
    ∃ pre,
      (mainRunEvents cpu doneDir ⟨some eid, some jid, some ⟨some ls⟩, some jd⟩).1
        = pre ++ [Event.touchFile (donePath doneDir eid jid) ""] ∧
      (mainRunEvents cpu doneDir ⟨some eid, some jid, some ⟨some ls⟩, some jd⟩).2
        = none ∧
      pre.countP isTouchFile = 0 ∧
      (∀ w, w < ls.workers.getD cpu → Event.joinWorker w ∈ pre) := by
  refine ⟨Event.loadJob :: (([Event.readConfig, Event.redirectStdStreams]
      ++ (List.range (ls.workers.getD cpu)).map Event.startWorker)
      ++ [Event.logStartup eid jid]) ++ [Event.dispatch]
      ++ (List.range (ls.workers.getD cpu)).map Event.joinWorker,
    ?_, ?_, ?_, ?_⟩
  · simp [mainRunEvents, initEvents, h]
  · simp [mainRunEvents, initEvents, h]
  · simp [List.countP_cons, List.countP_append, isTouchFile,
      countP_touch_map_start, countP_touch_map_join]
  · intro w hw
    have hm : Event.joinWorker w
        ∈ (List.range (ls.workers.getD cpu)).map Event.joinWorker :=
      List.mem_map_of_mem Event.joinWorker (List.mem_range.mpr hw)
    exact List.mem_cons_of_mem _ (List.mem_append_right _ hm)

/-- Closed instance of the C5 theorem at a concrete well-formed job. -/
theorem completion_marker_once_after_wait_witness :
    runFirstError sampleJDict = none ∧
    (∃ pre,
      (mainRunEvents 2 "done" ⟨some "exec/0", some "A001",
          some ⟨some ⟨some 2⟩⟩, some sampleJDict⟩).1
        = pre ++ [Event.touchFile (donePath "done" "exec/0" "A001") ""] ∧
      (mainRunEvents 2 "done" ⟨some "exec/0", some "A001",
          some ⟨some ⟨some 2⟩⟩, some sampleJDict⟩).2 = none ∧
      pre.countP isTouchFile = 0 ∧
      (∀ w, w < 2 → Event.joinWorker w ∈ pre)) :=
  ⟨by decide, completion_marker_once_after_wait 2 "done" "exec/0" "A001"
    ⟨some 2⟩ sampleJDict (by decide)⟩

/-- C6 counterexample: the description whose only missing field is
job_description loads without error, and the AttributeError is raised
only at the access of the missing field, after the 2 workers have
already been started, so the failure is not at load time and workers are
created for a malformed description. -/
theorem malformed_starts_workers_counterexample :
    (mainRunEvents 2 "done" ⟨some "e", some "j", some ⟨some ⟨some 2⟩⟩, none⟩).2
      = some (RunError.attributeError "job_description") ∧
    (mainRunEvents 2 "done" ⟨some "e", some "j", some ⟨some ⟨some 2⟩⟩, none⟩).1.countP
      isStartWorker = 2 :=
  ⟨by decide, by decide⟩

/-- C6 amended: a malformed job description fails at the first access of
the missing field rather than at load time: a missing executor_id, job_id
or config, or a config without the lithops key, does fail before any
worker is started, but a description missing only job_description fails
only after all the workers were started. -/
theorem malformed_failure_location (cpu : Nat) (doneDir : String) :
    (∀ jid cfg jdo,
      (mainRunEvents cpu doneDir ⟨none, jid, cfg, jdo⟩).2
        = some (RunError.attributeError "executor_id") ∧
      (mainRunEvents cpu doneDir ⟨none, jid, cfg, jdo⟩).1.countP
        isStartWorker = 0) ∧
    (∀ eid cfg jdo,
      (mainRunEvents cpu doneDir ⟨some eid, none, cfg, jdo⟩).2
        = some (RunError.attributeError "job_id") ∧
      (mainRunEvents cpu doneDir ⟨some eid, none, cfg, jdo⟩).1.countP
        isStartWorker = 0) ∧
    (∀ eid jid jdo,
      (mainRunEvents cpu doneDir ⟨some eid, some jid, none, jdo⟩).2
        = some (RunError.attributeError "config") ∧
      (mainRunEvents cpu doneDir ⟨some eid, some jid, none, jdo⟩).1.countP
        isStartWorker = 0) ∧
    (∀ eid jid jdo,
      (mainRunEvents cpu doneDir ⟨some eid, some jid, some ⟨none⟩, jdo⟩).2
        = some (RunError.keyError "lithops") ∧
      (mainRunEvents cpu doneDir ⟨some eid, some jid, some ⟨none⟩, jdo⟩).1.countP
        isStartWorker = 0) ∧
    (∀ eid jid ls,
      (mainRunEvents cpu doneDir ⟨some eid, some jid, some ⟨some ls⟩, none⟩).2
        = some (RunError.attributeError "job_description") ∧
      (mainRunEvents cpu doneDir ⟨some eid, some jid, some ⟨some ls⟩, none⟩).1.countP
        isStartWorker = ls.workers.getD cpu) := by
  refine ⟨?_, ?_, ?_, ?_, ?_⟩
  · intro jid cfg jdo
    exact ⟨rfl, rfl⟩
  · intro eid cfg jdo
    exact ⟨rfl, rfl⟩
  · intro eid jid jdo
    exact ⟨rfl, rfl⟩
  · intro eid jid jdo
    exact ⟨rfl, rfl⟩
  · intro eid jid ls
    refine ⟨by simp [mainRunEvents, initEvents], ?_⟩
    simp [mainRunEvents, initEvents, List.countP_cons, List.countP_append,
      isStartWorker, Function.comp_def, List.countP_true]

/-- C10: the startup log line at the end of the constructor reads the
module-global name job, which is not among the constructor parameters;
constructing a LocalhostExecutor in a context where that global is
unbound raises NameError, and by then every worker has already been
started. -/
theorem init_reads_unbound_global_job (cpu : Nat) (ls : LithopsSection) :
    (initEvents cpu ⟨some ls⟩ none).2 = some (RunError.nameError "job") ∧
    (initEvents cpu ⟨some ls⟩ none).1.countP isStartWorker
      = ls.workers.getD cpu ∧
    (∀ w, w < ls.workers.getD cpu →
      Event.startWorker w ∈ (initEvents cpu ⟨some ls⟩ none).1) := by
  refine ⟨rfl, ?_, ?_⟩
  · simp [initEvents, List.countP_cons, List.countP_append, isStartWorker,
      Function.comp_def, List.countP_true]
  · intro w hw
    have hm : Event.startWorker w
        ∈ (List.range (ls.workers.getD cpu)).map Event.startWorker :=
      List.mem_map_of_mem Event.startWorker (List.mem_range.mpr hw)
    show Event.startWorker w ∈ [Event.readConfig, Event.redirectStdStreams]
      ++ (List.range (ls.workers.getD cpu)).map Event.startWorker
    exact List.mem_append_right _ hm

/-! The preinstalls command: extract_runtime_meta. -/

/-- The order Python sorted applies to the [mod, is_pkg] pairs yielded by
pkgutil.iter_modules: lexicographic on the pair, module name first, with
False before True on the flag. -/
def modLe (a b : String × Bool) : Prop :=
  a.1 < b.1 ∨ (a.1 = b.1 ∧ a.2 ≤ b.2)

instance : DecidableRel modLe := fun a b =>
  decidable_of_iff (a.1 < b.1 ∨ (a.1 = b.1 ∧ a.2 ≤ b.2)) Iff.rfl

instance : IsTotal (String × Bool) modLe :=
  ⟨fun a b => by
    rcases lt_trichotomy a.1 b.1 with h | h | h
    · exact Or.inl (Or.inl h)
    · rcases le_total a.2 b.2 with hb | hb
      · exact Or.inl (Or.inr ⟨h, hb⟩)
      · exact Or.inr (Or.inr ⟨h.symm, hb⟩)
    · exact Or.inr (Or.inl h)⟩

instance : IsTrans (String × Bool) modLe :=
  ⟨fun a b c hab hbc => by
    rcases hab with h1 | ⟨h1, h1b⟩
    · rcases hbc with h2 | ⟨h2, _⟩
      · exact Or.inl (h1.trans h2)
      · exact Or.inl (lt_of_lt_of_le h1 (le_of_eq h2))
    · rcases hbc with h2 | ⟨h2, h2b⟩
      · exact Or.inl (lt_of_le_of_lt (le_of_eq h1) h2)
      · exact Or.inr ⟨h1.trans h2, le_trans h1b h2b⟩⟩

/-- A value of the runtime meta JSON object: the module pair list or a
version string. -/
inductive MetaValue where
  | modsList (l : List (String × Bool))
  | str (s : String)
deriving DecidableEq

/-- extract_runtime_meta: builds the runtime meta dict from the installed
module pairs (module name and is_pkg flag, as yielded by
pkgutil.iter_modules) and the Python version string, and prints it once
as one JSON object on standard output; modelled as the association list
of the dict in insertion order. Python sorted returns the unique sorted
permutation under this total antisymmetric order, here computed by
insertion sort. -/
def extract_runtime_meta (mods : List (String × Bool)) (pythonVer : String) :
    List (String × MetaValue) :=
  [("preinstalls", MetaValue.modsList (List.insertionSort modLe mods)),
   ("python_ver", MetaValue.str pythonVer)]

/-- C7 counterexample: at a concrete module list the runtime meta object
has exactly the keys preinstalls and python_ver, not preinstalls and
runtime_version as the claim states. -/
theorem preinstalls_keys_counterexample :
    (extract_runtime_meta [("beta", false), ("alpha", true)] "3.8").map Prod.fst
      ≠ ["preinstalls", "runtime_version"] ∧
    (extract_runtime_meta [("beta", false), ("alpha", true)] "3.8").map Prod.fst
      = ["preinstalls", "python_ver"] :=
  ⟨by decide, by decide⟩

/-- C7 amended: preinstalls emits to standard output a single JSON object
with exactly the keys preinstalls and python_ver (not runtime_version):
preinstalls holds the installed module pairs as a sorted permutation of
the input, in particular nondecreasing in module name, and python_ver
holds the Python version string. -/
theorem preinstalls_output_shape (mods : List (String × Bool)) (ver : String) :
    (extract_runtime_meta mods ver).map Prod.fst
      = ["preinstalls", "python_ver"] ∧
    (∃ l, (extract_runtime_meta mods ver)[0]?
        = some ("preinstalls", MetaValue.modsList l) ∧
      l.Perm mods ∧ List.Sorted modLe l ∧
      l.Pairwise (fun a b => a.1 ≤ b.1)) ∧
    (extract_runtime_meta mods ver)[1]?
      = some ("python_ver", MetaValue.str ver) := by
  refine ⟨rfl, ⟨List.insertionSort modLe mods, rfl,
    List.perm_insertionSort modLe mods,
    List.sorted_insertionSort modLe mods, ?_⟩, rfl⟩
  have hs := List.sorted_insertionSort modLe mods
  refine List.Pairwise.imp ?_ hs
  intro a b hab
  rcases hab with h | ⟨h, _⟩
  · exact le_of_lt h
  · exact le_of_eq h

end LocalHandler
